import Mathlib

/-!
Verification development for the Babylon Finance protocol repository.

Shallow embedding of the strategy-lifecycle / capital-accounting core:
  - fixed-point helpers (PreciseUnitMath-style 18-decimal arithmetic),
  - the FundIdeas reward-settlement slash formula,
  - the Garden contract's liquidity accounting, capital allocation and
    keeper-payment functions,
  - the LendOperation's exit and NAV functions,
  - a model of the Strategy contract's voting/execute/finalize/unwind
    entry points (the Strategy contract source is not part of this tree;
    only its tests and callers are, so it is modelled from the spec).

Machine integers are embedded as Nat / Int; Solidity SafeMath reverts on
overflow or underflow, and every subtraction below is either guarded by
the same comparison the source performs or hypothesised non-truncating.
A reverting call is an `Except.error`: by blockchain semantics a revert
leaves every balance and storage slot unchanged, so an error result *is*
the "no state change" outcome.
-/

namespace Babylon

/-- One precise unit, 10^18. All percentages in the protocol are expressed
in these units (1% = 10^16), per lib/PreciseUnitMath.sol. -/
def preciseUnit : Nat := 10 ^ 18

/-- Fixed-point multiply from PreciseUnitMath: `a * b / 10^18`, truncating.
Modelled from the spec: lib/PreciseUnitMath.sol is not under src/; the spec's
FixedPointMath component describes 18-decimal scaled-integer multiply with
truncation. -/
def preciseMul (a b : Nat) : Nat := a * b / preciseUnit

/-- Fixed-point divide from PreciseUnitMath: `a * 10^18 / b`, truncating.
Modelled from the spec: lib/PreciseUnitMath.sol is not under src/. The
callers below guard the divisor against zero, as Solidity division reverts
on a zero divisor. -/
def preciseDiv (a b : Nat) : Nat := a * preciseUnit / b

/-! ## FundIdeas reward settlement (src/packages/hardhat/contracts/FundIdeas.sol)

`_transferIdeaRewards` (lines 340-393). In the loss branch
(`capitalReturned <= idea.capitalRequested`, lines 368-389) the source reads:

    uint256 stakeToSlash = idea.stake;
    if (capitalReturned.add(idea.stake) > idea.capitalRequested) {
      stakeToSlash = capitalReturned.add(idea.stake).sub(idea.capitalRequested);
    }
-/

/-- The slashed amount computed by `FundIdeas._transferIdeaRewards` in the
loss branch, embedded verbatim from FundIdeas.sol lines 370-373. The
subtraction is guarded by the branch condition, so it never truncates. -/
def stakeToSlash (stake capitalRequested capitalReturned : Nat) : Nat :=
  if capitalReturned + stake > capitalRequested then
    capitalReturned + stake - capitalRequested
  else stake

/-- The slash formula stated by the spec (§4.5, loss branch):
`stakeToSlash = min(stake, capitalAllocated - capitalReturned)`, the amount
needed to cover the shortfall capped at the full stake. Written from the
spec's words, to be compared with `stakeToSlash` from the source. -/
def specStakeToSlash (stake capitalAllocated capitalReturned : Nat) : Nat :=
  min stake (capitalAllocated - capitalReturned)

/-! ## Garden (src/unnamed/part_006) -/

/-- Reverting conditions of the Garden functions embedded below, named after
the `Errors` codes the source raises. -/
inductive GardenErr where
  | onlyUnpaused
  | onlyStrategyCaller
  | onlyActiveGarden
  | onlyKeeper
  | minLiquidity
  deriving DecidableEq

/-- The Garden storage and token balances the embedded functions touch.
`gardenBalance` is `IERC20(reserveAsset).balanceOf(address(this))`;
`treasuryBalance`, `strategyBalance` and `keeperBalance` are the reserve
asset balances of the protocol treasury, the calling strategy and the
keeper, used to record outgoing transfers. -/
structure GardenState where
  gardenBalance : Nat
  reserveAssetPrincipalWindow : Nat
  reserveAssetRewardsSetAside : Nat
  withdrawalsOpenUntil : Nat
  keeperDebt : Nat
  treasuryBalance : Nat
  strategyBalance : Nat
  keeperBalance : Nat
  deriving DecidableEq

/-- `Garden._liquidReserve` (part_006 lines 742-747): reserve balance net of
the withdrawal-window and rewards set-asides. -/
def liquidReserve (g : GardenState) : Nat :=
  g.gardenBalance - g.reserveAssetPrincipalWindow - g.reserveAssetRewardsSetAside

/-- `Garden._reenableReserveForStrategies` (part_006 lines 753-758): once the
withdrawal window has elapsed the principal window is folded back into the
liquid reserve. -/
def reenableReserveForStrategies (now : Nat) (g : GardenState) : GardenState :=
  if g.withdrawalsOpenUntil ≤ now then
    { g with withdrawalsOpenUntil := 0, reserveAssetPrincipalWindow := 0 }
  else g

/-- `Garden.allocateCapitalToStrategy` (part_006 lines 578-591), embedded as a
single state transition: modifier checks, window re-enable, management-fee
computation, the liquidity check, the fee transfer to the treasury and the
capital transfer to the strategy all happen in this one atomic function, and
an error result leaves the pre-state untouched.
`paused`, `isStrategyCaller` and `gardenActive` carry the `_onlyStrategy` /
`_onlyActive` modifier inputs; `protocolManagementFee` is the controller's
fee rate in precise units. -/
def allocateCapitalToStrategy (paused isStrategyCaller gardenActive : Bool)
    (protocolManagementFee now capital : Nat) (g : GardenState) :
    Except GardenErr GardenState :=
  if paused then .error .onlyUnpaused
  else if !isStrategyCaller then .error .onlyStrategyCaller
  else if !gardenActive then .error .onlyActiveGarden
  else
    let g1 := reenableReserveForStrategies now g
    let protocolMgmtFee := preciseMul protocolManagementFee capital
    if capital + protocolMgmtFee ≤ liquidReserve g1 then
      .ok { g1 with
              gardenBalance := g1.gardenBalance - protocolMgmtFee - capital,
              treasuryBalance := g1.treasuryBalance + protocolMgmtFee,
              strategyBalance := g1.strategyBalance + capital }
    else .error .minLiquidity

/-- `Garden.payKeeper` (part_006 lines 501-510): the fee is always added to
`keeperDebt`; the whole accumulated debt is transferred to the keeper and the
debt reset to zero only when the liquid reserve covers it, otherwise nothing
is transferred and the debt persists. -/
def payKeeper (validKeeper paused isStrategyCaller : Bool) (fee : Nat)
    (g : GardenState) : Except GardenErr GardenState :=
  if !validKeeper then .error .onlyKeeper
  else if paused then .error .onlyUnpaused
  else if !isStrategyCaller then .error .onlyStrategyCaller
  else
    let debt := g.keeperDebt + fee
    if 0 < debt ∧ debt ≤ liquidReserve g then
      .ok { g with
              keeperDebt := 0,
              gardenBalance := g.gardenBalance - debt,
              keeperBalance := g.keeperBalance + debt }
    else .ok { g with keeperDebt := debt }

/-- `Garden.withdraw` (part_006 lines 404-412): when withdrawing with
penalty, the Garden requests an unwind of the desired outflow plus a 5%
slippage buffer on top: `outflow.add(outflow.preciseMul(5e16))`. -/
def unwindRequestWithBuffer (outflow : Nat) : Nat :=
  outflow + preciseMul outflow (5 * 10 ^ 16)

/-! ## LendOperation (src/unnamed/part_006, second document, lines 961-1071) -/

/-- Reverting conditions of the LendOperation functions embedded below. -/
inductive OpErr where
  | unwindPercentageTooHigh
  | navComputationFailed
  deriving DecidableEq

/-- 100% in precise units, `HUNDRED_PERCENT` from Operation.sol. -/
def hundredPercent : Nat := preciseUnit

/-- Slippage tolerance of the operation. Modelled from the spec:
Operation.sol is not under src/; the spec's OperationExecutor section gives a
configurable slippage tolerance of ~0.5-5% in precise units. The claims
below do not depend on its exact value. -/
def slippageAllowed : Nat := 10 ^ 16

/-- Observable effects of `LendOperation.exitOperation`: how many investment
tokens were redeemed from the integration, the minimum underlying amount
demanded from the redeem, and whether (and with how much) a trade leg back
to the garden's reserve asset ran. -/
structure ExitResult where
  redeemedTokens : Nat
  minAmountOut : Nat
  tradedToReserve : Bool
  tradedAmount : Nat
  deriving DecidableEq

/-- `LendOperation.exitOperation` (part_006 lines 1024-1047). Addresses are
embedded as naturals. `investmentTokenBalance` is the strategy's balance of
the integration's investment token, `exchangeRate` the integration's
`getExchangeRatePerToken`, and `assetBalanceAfterRedeem` the strategy's
balance of `assetToken` after the redeem, which the trade leg sends back to
the reserve asset whenever `assetToken` differs from it. -/
def lendExitOperation (percentage assetToken reserveAsset : Nat)
    (investmentTokenBalance exchangeRate assetBalanceAfterRedeem : Nat) :
    Except OpErr ExitResult :=
  if hundredPercent < percentage then .error .unwindPercentageTooHigh
  else
    let numTokensToRedeem := preciseMul investmentTokenBalance percentage
    let minOut :=
      exchangeRate * (numTokensToRedeem - preciseMul numTokensToRedeem slippageAllowed)
    if assetToken ≠ reserveAsset then
      .ok { redeemedTokens := numTokensToRedeem, minAmountOut := minOut,
            tradedToReserve := true, tradedAmount := assetBalanceAfterRedeem }
    else
      .ok { redeemedTokens := numTokensToRedeem, minAmountOut := minOut,
            tradedToReserve := false, tradedAmount := 0 }

/-- Decimal normalization of `SafeDecimalMath.normalizeDecimals`.
Modelled from the spec: lib/SafeDecimalMath.sol is not under src/; the spec's
FixedPointMath component scales token amounts to 18-decimal precise units,
here by a per-token factor. The NAV claim below does not depend on its form. -/
def normalizeDecimals (factor amount : Nat) : Nat := amount * factor

/-- `LendOperation.getNAV` (part_006 lines 1054-1070): returns 0 when the
owning strategy is not active; otherwise marks the held investment tokens to
market through the oracle price and reverts (rather than returning 0) when
the price lookup fails (`price = none`), when the price is zero (division
reverts), or when the computed NAV is zero (`require(NAV != 0)`). -/
def lendGetNAV (strategyActive : Bool)
    (investmentTokenBalance exchangeRate : Nat) (price : Option Nat)
    (decimalsFactor : Nat) : Except OpErr Nat :=
  if !strategyActive then .ok 0
  else
    let assetTokensAmount := exchangeRate * investmentTokenBalance
    match price with
    | none => .error .navComputationFailed
    | some p =>
      if p = 0 then .error .navComputationFailed
      else
        let nav := preciseDiv (normalizeDecimals decimalsFactor assetTokensAmount) p
        if nav = 0 then .error .navComputationFailed else .ok nav

/-! ## Strategy state machine

Modelled from the spec: the Strategy contract itself is not under src/ —
only its test suite (src/unnamed/part_003) and its callers (the Garden in
src/unnamed/part_006) are. The definitions below follow spec §3
(data model), §4.1 (VotingEngine) and §4.2 (StrategyStateMachine). -/

/-- Reverting conditions of the Strategy entry points, named after the
error taxonomy of spec §7. -/
inductive StratErr where
  | unauthorized
  | votingWindowClosed
  | votingAlreadyResolved
  | votesLengthMismatch
  | notResolved
  | cooldownNotElapsed
  | feeTooHigh
  | maxCapitalReached
  | insufficientLiquidity
  | durationNotElapsed
  | alreadyFinalized
  | strategyNotActive
  | insufficientCapitalToUnwind
  deriving DecidableEq

/-- Modelled from the spec: the Strategy entity of spec §3. Voter addresses
are embedded as naturals and the per-voter signed powers as an association
list; `capitalRequested` is the maximum capital to allocate. -/
structure StrategyState where
  resolved : Bool
  votes : List (Nat × Int)
  absoluteTotalVotes : Nat
  totalVotes : Int
  active : Bool
  finalized : Bool
  enteredAt : Nat
  resolvedAt : Nat
  executedAt : Nat
  exitedAt : Nat
  capitalAllocated : Nat
  capitalReturned : Nat
  capitalRequested : Nat
  stake : Nat
  duration : Nat
  deriving DecidableEq

/-- Modelled from the spec: `getUserVotes(voter)` of spec §4.1 — the recorded
signed power for a voter in the resolved list and zero otherwise. -/
def getUserVotes (s : StrategyState) (voter : Nat) : Int :=
  match s.votes.lookup voter with
  | some p => p
  | none => 0

/-- Modelled from the spec: `resolveVoting` of spec §4.1. Keeper-only;
callable only before the voting window (of length `votingWindow`, opened at
`enteredAt`) closes, else `VotingWindowClosed`; at most once, else
`VotingAlreadyResolved`; the parallel voter/power lists must have equal
length. On success it records each voter's power, stores the submitted
aggregate totals without recomputing them, latches `resolved`, and pays the
keeper fee (the second component of the result) from the strategy's reserve
credit. An error result is a revert: the pre-state is untouched. -/
def resolveVoting (isKeeper : Bool) (now votingWindow : Nat)
    (voters : List Nat) (powers : List Int)
    (absoluteTotal : Nat) (netTotal : Int) (keeperFee : Nat)
    (s : StrategyState) : Except StratErr (StrategyState × Nat) :=
  if !isKeeper then .error .unauthorized
  else if s.enteredAt + votingWindow ≤ now then .error .votingWindowClosed
  else if s.resolved then .error .votingAlreadyResolved
  else if voters.length ≠ powers.length then .error .votesLengthMismatch
  else
    .ok ({ s with
            resolved := true,
            votes := voters.zip powers,
            absoluteTotalVotes := absoluteTotal,
            totalVotes := netTotal,
            resolvedAt := now }, keeperFee)

/-- Modelled from the spec: `executeStrategy(capital, fee)` of spec §4.2.
Keeper-only; requires the vote resolved, the cooldown elapsed,
`fee <= maxFee` (else `FeeTooHigh`), cumulative capital within
`capitalRequested` (spec §4.4 `recordAllocation`), and capital within the
Garden's liquid reserve. The first successful call sets `executedAt := now`
and `active := true`; later calls only add capital. The second component of
the result is the keeper fee paid. -/
def executeStrategy (isKeeper : Bool) (now cooldown maxFee liquidRes : Nat)
    (capital fee : Nat) (s : StrategyState) :
    Except StratErr (StrategyState × Nat) :=
  if !isKeeper then .error .unauthorized
  else if !s.resolved then .error .notResolved
  else if s.finalized then .error .alreadyFinalized
  else if now < s.resolvedAt + cooldown then .error .cooldownNotElapsed
  else if maxFee < fee then .error .feeTooHigh
  else if s.capitalRequested < s.capitalAllocated + capital then .error .maxCapitalReached
  else if liquidRes < capital then .error .insufficientLiquidity
  else
    .ok ({ s with
            active := true,
            capitalAllocated := s.capitalAllocated + capital,
            executedAt := if s.executedAt = 0 then now else s.executedAt }, fee)

/-- Modelled from the spec: `finalizeStrategy(fee)` of spec §4.2.
Keeper-only; requires `executedAt + duration` elapsed, not already
finalized (`AlreadyFinalized`), and `fee <= maxFee` (else `FeeTooHigh`,
same ceiling as execution). On success, `capitalRecovered` — the reserve
asset recovered by exiting all operations — becomes `capitalReturned`, the
strategy is latched finalized and the keeper fee (second component) paid. -/
def finalizeStrategy (isKeeper : Bool) (now maxFee : Nat)
    (fee capitalRecovered : Nat) (s : StrategyState) :
    Except StratErr (StrategyState × Nat) :=
  if !isKeeper then .error .unauthorized
  else if now < s.executedAt + s.duration then .error .durationNotElapsed
  else if s.finalized then .error .alreadyFinalized
  else if maxFee < fee then .error .feeTooHigh
  else
    .ok ({ s with
            finalized := true,
            active := false,
            exitedAt := now,
            capitalReturned := capitalRecovered }, fee)

/-- Modelled from the spec: `unwindStrategy(amountToUnwind)` of spec §4.2.
Callable only by the Garden or the strategist, on an active, unfinalized
strategy; fails with `InsufficientCapitalToUnwind` when the active capital
is less than the requested amount. On success it reduces `capitalAllocated`
by the unwound amount and returns that much reserve asset (the second
component) to the Garden immediately, without waiting for finalization.
The 5% slippage buffer is added on top of the desired outflow by the
caller, `Garden.withdraw` (see `unwindRequestWithBuffer`). -/
def unwindStrategy (isGardenOrStrategist : Bool) (amount : Nat)
    (s : StrategyState) : Except StratErr (StrategyState × Nat) :=
  if !isGardenOrStrategist then .error .unauthorized
  else if !s.active || s.finalized then .error .strategyNotActive
  else if s.capitalAllocated < amount then .error .insufficientCapitalToUnwind
  else
    .ok ({ s with capitalAllocated := s.capitalAllocated - amount }, amount)

/-! ## Concrete states used by the witnesses -/

/-- A freshly proposed strategy: unresolved, nothing executed, requesting at
most 10 units of capital with a stake of 1 and a duration of 30. -/
def sampleStrategy : StrategyState :=
  { resolved := false, votes := [], absoluteTotalVotes := 0, totalVotes := 0,
    active := false, finalized := false, enteredAt := 0, resolvedAt := 0,
    executedAt := 0, exitedAt := 0, capitalAllocated := 0, capitalReturned := 0,
    capitalRequested := 10, stake := 1, duration := 30 }

/-- `sampleStrategy` after its voting has been resolved. -/
def sampleResolved : StrategyState := { sampleStrategy with resolved := true }

/-- `sampleResolved` after a first execution at time 5 with 2 units of capital. -/
def sampleExecuted : StrategyState :=
  { sampleResolved with active := true, capitalAllocated := 2, executedAt := 5 }

/-- `sampleExecuted` after a second (top-up) execution adding 2 more units. -/
def sampleToppedUp : StrategyState := { sampleExecuted with capitalAllocated := 4 }

/-- The three voters of spec §8 Scenario A, as numeric addresses. -/
def scenarioVoters : List Nat := [11, 22, 33]

/-- The signed powers `[+5, +3, -2]` of spec §8 Scenario A. -/
def scenarioPowers : List Int := [5, 3, -2]

/-- `sampleStrategy` after resolving Scenario A's votes at time 1 with
`absoluteTotal = 10` and `netTotal = +6`. -/
def scenarioResolved : StrategyState :=
  { sampleStrategy with
    resolved := true, votes := scenarioVoters.zip scenarioPowers,
    absoluteTotalVotes := 10, totalVotes := 6, resolvedAt := 1 }

/-- An executed strategy holding 2 full precise units of capital. -/
def sampleActiveBig : StrategyState :=
  { sampleResolved with
    active := true, executedAt := 5,
    capitalAllocated := 2 * 10 ^ 18, capitalRequested := 10 * 10 ^ 18 }

/-- Like `sampleActiveBig` but holding only 1 precise unit of capital. -/
def sampleActiveSmall : StrategyState :=
  { sampleActiveBig with capitalAllocated := 10 ^ 18 }

/-- A garden with 100 precise units of reserve, of which 10 sit in the
withdrawal window (open until time 50) and 5 are set aside as rewards. -/
def sampleGarden : GardenState :=
  { gardenBalance := 100 * 10 ^ 18, reserveAssetPrincipalWindow := 10 * 10 ^ 18,
    reserveAssetRewardsSetAside := 5 * 10 ^ 18, withdrawalsOpenUntil := 50,
    keeperDebt := 0, treasuryBalance := 0, strategyBalance := 0, keeperBalance := 0 }

/-- A small garden carrying 3 units of keeper debt over a liquid reserve of 15. -/
def sampleGardenSmall : GardenState :=
  { gardenBalance := 20, reserveAssetPrincipalWindow := 4,
    reserveAssetRewardsSetAside := 1, withdrawalsOpenUntil := 0,
    keeperDebt := 3, treasuryBalance := 0, strategyBalance := 0, keeperBalance := 0 }

/-! ## Helper lemmas on association-list lookup -/

/-- Lookup finds the unique binding of a key when the keys are distinct. -/
theorem lookup_of_mem_of_nodupKeys {l : List (Nat × Int)} {v : Nat} {p : Int}
    (hnd : (l.map Prod.fst).Nodup) (hm : (v, p) ∈ l) : l.lookup v = some p := by
  induction l with
  | nil => simp at hm
  | cons hd tl ih =>
    obtain ⟨k, q⟩ := hd
    rw [List.map_cons, List.nodup_cons] at hnd
    rcases List.mem_cons.mp hm with hE | hT
    · injection hE with h1 h2
      subst h1; subst h2
      simp [List.lookup]
    · have hv : v ∈ tl.map Prod.fst := List.mem_map.mpr ⟨(v, p), hT, rfl⟩
      have hne : (v == k) = false := by
        refine beq_eq_false_iff_ne.mpr ?_
        intro h
        subst h
        exact hnd.1 hv
      simp only [List.lookup, hne]
      exact ih hnd.2 hT

/-- Lookup of a key that binds nothing yields `none`. -/
theorem lookup_of_not_memKeys {l : List (Nat × Int)} {v : Nat}
    (h : v ∉ l.map Prod.fst) : l.lookup v = none := by
  induction l with
  | nil => rfl
  | cons hd tl ih =>
    obtain ⟨k, q⟩ := hd
    rw [List.map_cons, List.mem_cons] at h
    push_neg at h
    have hne : (v == k) = false := beq_eq_false_iff_ne.mpr h.1
    simp only [List.lookup, hne]
    exact ih h.2

/-! ## Claim theorems -/

/-- C1: the claim states that on loss-branch finalization the settlement
slashes exactly `min(stake, capitalAllocated - capitalReturned)`; at the
failing input `stake = 4e18`, `capitalAllocated = 10e18`,
`capitalReturned = 9e18` (= 0.9 * capitalAllocated, the claim's Scenario C
shape) the source's formula (`FundIdeas.sol` lines 370-373, embedded as
`stakeToSlash`) slashes `3e18` — the stake *minus* the shortfall — while the
claimed formula gives `min(4e18, 1e18) = 1e18`. The code's slash shrinks as
the loss grows, the reverse of covering the shortfall. -/
theorem c1_stakeToSlash_diverges_from_min :
    stakeToSlash (4 * 10 ^ 18) (10 * 10 ^ 18) (9 * 10 ^ 18) = 3 * 10 ^ 18 ∧
    specStakeToSlash (4 * 10 ^ 18) (10 * 10 ^ 18) (9 * 10 ^ 18) = 1 * 10 ^ 18 ∧
    stakeToSlash (4 * 10 ^ 18) (10 * 10 ^ 18) (9 * 10 ^ 18) ≠
      specStakeToSlash (4 * 10 ^ 18) (10 * 10 ^ 18) (9 * 10 ^ 18) := by
  refine ⟨?_, ?_, ?_⟩ <;> decide

/-- C2: voting resolution is a one-time latch — with the keeper calling,
`resolveVoting` after the voting window has closed fails with
`VotingWindowClosed`, and on an already-resolved strategy (within the
window) it fails with `VotingAlreadyResolved`; an error is a revert, so the
strategy's voting state is untouched in both cases. -/
theorem c2_resolveVoting_latch (now votingWindow : Nat) (voters : List Nat)
    (powers : List Int) (absoluteTotal : Nat) (netTotal : Int) (keeperFee : Nat)
    (s : StrategyState) :
    (s.enteredAt + votingWindow ≤ now →
      resolveVoting true now votingWindow voters powers absoluteTotal netTotal
        keeperFee s = .error .votingWindowClosed) ∧
    (now < s.enteredAt + votingWindow → s.resolved = true →
      resolveVoting true now votingWindow voters powers absoluteTotal netTotal
        keeperFee s = .error .votingAlreadyResolved) := by
  constructor
  · intro h
    simp [resolveVoting, h]
  · intro h hres
    simp [resolveVoting, Nat.not_le.mpr h, hres]

/-- C2 witness: at time 10 the 7-long window opened at 0 is closed; and a
resolved strategy rejects a second resolution at time 1. -/
theorem c2_witness :
    resolveVoting true 10 7 [] [] 0 0 0 sampleStrategy = .error .votingWindowClosed ∧
    resolveVoting true 1 7 [] [] 0 0 0 sampleResolved = .error .votingAlreadyResolved :=
  ⟨(c2_resolveVoting_latch 10 7 [] [] 0 0 0 sampleStrategy).1 (by decide),
   (c2_resolveVoting_latch 1 7 [] [] 0 0 0 sampleResolved).2 (by decide) (by decide)⟩

/-- C3: after a successful `resolveVoting`, `getUserVotes` returns the
submitted signed power for every listed voter and zero for any other
address, and the stored aggregate totals are exactly the submitted
`absoluteTotal` and `netTotal` — the engine stores, it does not recompute. -/
theorem c3_resolveVoting_records_submitted (now votingWindow : Nat)
    (voters : List Nat) (powers : List Int) (absoluteTotal : Nat)
    (netTotal : Int) (keeperFee : Nat) (s s2 : StrategyState) (fee : Nat)
    (hnd : voters.Nodup)
    (hok : resolveVoting true now votingWindow voters powers absoluteTotal
      netTotal keeperFee s = .ok (s2, fee)) :
    (∀ v p, (v, p) ∈ voters.zip powers → getUserVotes s2 v = p) ∧
    (∀ v, v ∉ voters → getUserVotes s2 v = 0) ∧
    s2.absoluteTotalVotes = absoluteTotal ∧ s2.totalVotes = netTotal := by
  unfold resolveVoting at hok
  split at hok
  · exact absurd hok (by simp)
  split at hok
  · exact absurd hok (by simp)
  split at hok
  · exact absurd hok (by simp)
  split at hok
  · exact absurd hok (by simp)
  rename_i hlen
  rw [Decidable.not_not] at hlen
  injection hok with hok
  injection hok with hs hf
  subst hs
  have hfst : (voters.zip powers).map Prod.fst = voters :=
    List.map_fst_zip voters powers (le_of_eq hlen)
  refine ⟨?_, ?_, rfl, rfl⟩
  · intro v p hm
    have : (voters.zip powers).lookup v = some p :=
      lookup_of_mem_of_nodupKeys (by rw [hfst]; exact hnd) hm
    simp [getUserVotes, this]
  · intro v hv
    have : (voters.zip powers).lookup v = none :=
      lookup_of_not_memKeys (by rw [hfst]; exact hv)
    simp [getUserVotes, this]

/-- C3 witness: Scenario A — voters `[11,22,33]` with powers `[+5,+3,-2]`
resolved with `absoluteTotal = 10`, `netTotal = +6`; voter 11 reads back 5,
the unlisted address 44 reads 0, and the totals are the submitted ones. -/
theorem c3_witness :
    getUserVotes scenarioResolved 11 = 5 ∧ getUserVotes scenarioResolved 33 = -2 ∧
    getUserVotes scenarioResolved 44 = 0 ∧
    scenarioResolved.absoluteTotalVotes = 10 ∧ scenarioResolved.totalVotes = 6 := by
  have h := c3_resolveVoting_records_submitted 1 7 scenarioVoters scenarioPowers
    10 6 42 sampleStrategy scenarioResolved 42 (by decide) rfl
  exact ⟨h.1 11 5 (by decide), h.1 33 (-2) (by decide), h.2.1 44 (by decide),
    h.2.2.1, h.2.2.2⟩

/-- C4: `executedAt` is set by the first successful `executeStrategy` call
(`executedAt = 0` beforehand) and never changed by any later successful
call on the same strategy; later calls only add capital and keep the
strategy active — a top-up, not a restart. -/
theorem c4_executedAt_idempotent (now cooldown maxFee liquidRes capital fee : Nat)
    (s s2 : StrategyState) (paidFee : Nat)
    (hok : executeStrategy true now cooldown maxFee liquidRes capital fee s =
      .ok (s2, paidFee)) :
    (s.executedAt = 0 → s2.executedAt = now) ∧
    (s.executedAt ≠ 0 → s2.executedAt = s.executedAt) ∧
    s2.capitalAllocated = s.capitalAllocated + capital ∧ s2.active = true := by
  unfold executeStrategy at hok
  split at hok
  · exact absurd hok (by simp)
  split at hok
  · exact absurd hok (by simp)
  split at hok
  · exact absurd hok (by simp)
  split at hok
  · exact absurd hok (by simp)
  split at hok
  · exact absurd hok (by simp)
  split at hok
  · exact absurd hok (by simp)
  split at hok
  · exact absurd hok (by simp)
  injection hok with hok
  injection hok with hs hf
  subst hs
  refine ⟨?_, ?_, rfl, rfl⟩
  · intro h0
    simp [h0]
  · intro h0
    simp [h0]

/-- C4 witness: the first execution (at time 5) sets `executedAt = 5`; a
second successful execution at time 9 leaves `executedAt = 5` and only adds
its capital. -/
theorem c4_witness :
    sampleExecuted.executedAt = 5 ∧ sampleToppedUp.executedAt = 5 ∧
    sampleToppedUp.capitalAllocated = sampleExecuted.capitalAllocated + 2 := by
  have h1 := c4_executedAt_idempotent 5 1 10 100 2 1 sampleResolved sampleExecuted 1 rfl
  have h2 := c4_executedAt_idempotent 9 1 10 100 2 1 sampleExecuted sampleToppedUp 1 rfl
  refine ⟨h1.1 (by decide), ?_, h2.2.2.1⟩
  rw [h2.2.1 (by decide)]
  exact h1.1 (by decide)

/-- C5: with every other precondition met, `executeStrategy` succeeds when
the keeper fee equals the configured ceiling `maxFee` and fails with
`FeeTooHigh` at `maxFee + 1`; `finalizeStrategy` enforces the same ceiling. -/
theorem c5_fee_ceiling (now cooldown maxFee liquidRes capital capitalRecovered : Nat)
    (s t : StrategyState)
    (hres : s.resolved = true) (hfin : s.finalized = false)
    (hcd : s.resolvedAt + cooldown ≤ now)
    (hcap : s.capitalAllocated + capital ≤ s.capitalRequested)
    (hliq : capital ≤ liquidRes)
    (hdur : t.executedAt + t.duration ≤ now) (htfin : t.finalized = false) :
    (∃ out, executeStrategy true now cooldown maxFee liquidRes capital maxFee s =
      .ok out) ∧
    executeStrategy true now cooldown maxFee liquidRes capital (maxFee + 1) s =
      .error .feeTooHigh ∧
    (∃ out, finalizeStrategy true now maxFee maxFee capitalRecovered t = .ok out) ∧
    finalizeStrategy true now maxFee (maxFee + 1) capitalRecovered t =
      .error .feeTooHigh := by
  refine ⟨⟨({ s with
              active := true,
              capitalAllocated := s.capitalAllocated + capital,
              executedAt := if s.executedAt = 0 then now else s.executedAt },
            maxFee), ?_⟩, ?_,
    ⟨({ t with
        finalized := true, active := false, exitedAt := now,
        capitalReturned := capitalRecovered }, maxFee), ?_⟩, ?_⟩
  · simp [executeStrategy, hres, hfin, Nat.not_lt.mpr hcd, Nat.not_lt.mpr hcap,
      Nat.not_lt.mpr hliq]
  · simp [executeStrategy, hres, hfin, Nat.not_lt.mpr hcd, Nat.lt_succ_self]
  · simp [finalizeStrategy, htfin, Nat.not_lt.mpr hdur]
  · simp [finalizeStrategy, htfin, Nat.not_lt.mpr hdur, Nat.lt_succ_self]

/-- C5 witness: with ceiling 10, executing `sampleResolved` at fee 10
succeeds and at fee 11 fails with `FeeTooHigh`; finalizing `sampleExecuted`
behaves the same at the same ceiling. -/
theorem c5_witness :
    (∃ out, executeStrategy true 40 1 10 100 2 10 sampleResolved = .ok out) ∧
    executeStrategy true 40 1 10 100 2 11 sampleResolved = .error .feeTooHigh ∧
    (∃ out, finalizeStrategy true 40 10 10 7 sampleExecuted = .ok out) ∧
    finalizeStrategy true 40 10 11 7 sampleExecuted = .error .feeTooHigh :=
  c5_fee_ceiling 40 1 10 100 2 7 sampleResolved sampleExecuted (by decide)
    (by decide) (by decide) (by decide) (by decide) (by decide) (by decide)

/-- C6: on an active, unfinalized strategy, an unwind request for a desired
outflow — which `Garden.withdraw` passes on with its 5% slippage buffer
added, `unwindRequestWithBuffer` — fails with `InsufficientCapitalToUnwind`
(a revert: no balance changes) when the active capital cannot cover the
buffered request; when it can, the call decreases `capitalAllocated` by
exactly the unwound amount and that amount of reserve asset (the second
component) goes back to the Garden immediately, without waiting for
finalization. -/
theorem c6_unwind_buffer (outflow : Nat) (s : StrategyState)
    (hact : s.active = true) (hfin : s.finalized = false) :
    (s.capitalAllocated < unwindRequestWithBuffer outflow →
      unwindStrategy true (unwindRequestWithBuffer outflow) s =
        .error .insufficientCapitalToUnwind) ∧
    (unwindRequestWithBuffer outflow ≤ s.capitalAllocated →
      unwindStrategy true (unwindRequestWithBuffer outflow) s =
        .ok ({ s with
               capitalAllocated :=
                 s.capitalAllocated - unwindRequestWithBuffer outflow },
             unwindRequestWithBuffer outflow)) := by
  constructor
  · intro h
    simp [unwindStrategy, hact, hfin, h]
  · intro h
    simp [unwindStrategy, hact, hfin, Nat.not_lt.mpr h]

/-- C6 witness: requesting an outflow of 1e18 becomes a buffered request of
1.05e18; a strategy holding 1e18 of active capital fails with
`InsufficientCapitalToUnwind`, while one holding 2e18 unwinds exactly
1.05e18, sending it back to the Garden. -/
theorem c6_witness :
    unwindStrategy true (unwindRequestWithBuffer (10 ^ 18)) sampleActiveSmall =
      .error .insufficientCapitalToUnwind ∧
    unwindStrategy true (unwindRequestWithBuffer (10 ^ 18)) sampleActiveBig =
      .ok ({ sampleActiveBig with
             capitalAllocated :=
               sampleActiveBig.capitalAllocated - unwindRequestWithBuffer (10 ^ 18) },
           unwindRequestWithBuffer (10 ^ 18)) :=
  ⟨(c6_unwind_buffer (10 ^ 18) sampleActiveSmall (by decide) (by decide)).1 (by decide),
   (c6_unwind_buffer (10 ^ 18) sampleActiveBig (by decide) (by decide)).2 (by decide)⟩

/-- C7: `LendOperation.getNAV` returns 0 whenever the owning strategy is not
active; for an active strategy it never returns 0 — if the mark-to-market
computation yields zero (for instance the oracle price lookup fails or the
price is degenerate) the call reverts with `NavComputationFailed` instead of
returning 0. -/
theorem c7_lend_nav_zero_policy (bal rate decFactor : Nat) (price : Option Nat) :
    lendGetNAV false bal rate price decFactor = .ok 0 ∧
    (∀ v, lendGetNAV true bal rate price decFactor = .ok v → 0 < v) := by
  constructor
  · rfl
  · intro v hv
    unfold lendGetNAV at hv
    simp only [Bool.not_true, Bool.false_eq_true, if_false] at hv
    match price with
    | none => exact absurd hv (by simp)
    | some p =>
      simp only at hv
      split at hv
      · exact absurd hv (by simp)
      split at hv
      · exact absurd hv (by simp)
      rename_i hnz
      injection hv with hv
      subst hv
      exact Nat.pos_of_ne_zero hnz

/-- C7 witness: an inactive strategy values to `ok 0`; an active strategy
holding 7 investment tokens at exchange rate 2 and oracle price 1e18 values
to 14, which is nonzero. -/
theorem c7_witness :
    lendGetNAV false 7 2 (some preciseUnit) 1 = .ok 0 ∧ (0 : Nat) < 14 :=
  ⟨(c7_lend_nav_zero_policy 7 2 1 (some preciseUnit)).1,
   (c7_lend_nav_zero_policy 7 2 1 (some preciseUnit)).2 14 rfl⟩

/-- C8: `LendOperation.exitOperation` rejects every percentage strictly above
100% (1e18 precise units) and accepts 100% and any partial percentage; on
success it redeems exactly the fixed-point fraction
`preciseMul balance percentage` of the held investment-token position —
at 100% the whole position — and runs the trade leg back to the garden's
reserve asset exactly when the redeemed asset differs from it. -/
theorem c8_exit_percentage (percentage assetToken reserveAsset bal rate postBal : Nat) :
    (hundredPercent < percentage →
      lendExitOperation percentage assetToken reserveAsset bal rate postBal =
        .error .unwindPercentageTooHigh) ∧
    (percentage ≤ hundredPercent →
      ∃ r : ExitResult,
        lendExitOperation percentage assetToken reserveAsset bal rate postBal =
          .ok r ∧
        r.redeemedTokens = preciseMul bal percentage ∧
        (assetToken ≠ reserveAsset ↔ r.tradedToReserve = true)) ∧
    preciseMul bal hundredPercent = bal := by
  refine ⟨?_, ?_, ?_⟩
  · intro h
    simp [lendExitOperation, h]
  · intro h
    by_cases hne : assetToken = reserveAsset
    · refine ⟨{ redeemedTokens := preciseMul bal percentage,
                minAmountOut := rate * (preciseMul bal percentage -
                  preciseMul (preciseMul bal percentage) slippageAllowed),
                tradedToReserve := false, tradedAmount := 0 }, ?_, rfl, ?_⟩
      · simp [lendExitOperation, Nat.not_lt.mpr h, hne]
      · simp [hne]
    · refine ⟨{ redeemedTokens := preciseMul bal percentage,
                minAmountOut := rate * (preciseMul bal percentage -
                  preciseMul (preciseMul bal percentage) slippageAllowed),
                tradedToReserve := true, tradedAmount := postBal }, ?_, rfl, ?_⟩
      · simp [lendExitOperation, Nat.not_lt.mpr h, hne]
      · simp [hne]
  · unfold preciseMul hundredPercent preciseUnit
    exact Nat.mul_div_cancel bal (by norm_num)

/-- C8 witness: 200% is rejected; a 50% exit of a 10-token position redeems
5 tokens and, the lent asset differing from the reserve asset, trades back
to the reserve. -/
theorem c8_witness :
    lendExitOperation (2 * 10 ^ 18) 1 2 10 3 6 = .error .unwindPercentageTooHigh ∧
    (∃ r : ExitResult,
      lendExitOperation (5 * 10 ^ 17) 1 2 10 3 6 = .ok r ∧
      r.redeemedTokens = preciseMul 10 (5 * 10 ^ 17) ∧
      ((1 : Nat) ≠ 2 ↔ r.tradedToReserve = true)) :=
  ⟨(c8_exit_percentage (2 * 10 ^ 18) 1 2 10 3 6).1 (by norm_num [hundredPercent, preciseUnit]),
   (c8_exit_percentage (5 * 10 ^ 17) 1 2 10 3 6).2.1 (by norm_num [hundredPercent, preciseUnit])⟩

/-- C9: `Garden.allocateCapitalToStrategy` succeeds exactly when the
requested capital plus the protocol management fee fits inside the liquid
reserve (the reserve balance net of the withdrawal-window and rewards
set-asides, after the expired-window re-enable); on success the fee goes to
the treasury and the capital to the strategy in the same atomic transition
that performed the check, and otherwise it fails with the
insufficient-liquidity error, transferring nothing (an error is a revert). -/
theorem c9_allocate_liquidity (pmf now capital : Nat) (g : GardenState) :
    (capital + preciseMul pmf capital ≤
        liquidReserve (reenableReserveForStrategies now g) →
      allocateCapitalToStrategy false true true pmf now capital g =
        .ok { reenableReserveForStrategies now g with
              gardenBalance :=
                (reenableReserveForStrategies now g).gardenBalance -
                  preciseMul pmf capital - capital,
              treasuryBalance :=
                (reenableReserveForStrategies now g).treasuryBalance +
                  preciseMul pmf capital,
              strategyBalance :=
                (reenableReserveForStrategies now g).strategyBalance + capital }) ∧
    (liquidReserve (reenableReserveForStrategies now g) <
        capital + preciseMul pmf capital →
      allocateCapitalToStrategy false true true pmf now capital g =
        .error .minLiquidity) := by
  constructor
  · intro h
    simp [allocateCapitalToStrategy, h]
  · intro h
    simp [allocateCapitalToStrategy, Nat.not_le.mpr h]

/-- C9 witness: with a 1% management fee and the withdrawal window expired
(liquid reserve 95e18), allocating 50e18 (fee 0.5e18) succeeds, while
allocating 95e18 (fee 0.95e18) exceeds the liquid reserve and fails with the
insufficient-liquidity error. -/
theorem c9_witness :
    allocateCapitalToStrategy false true true (10 ^ 16) 60 (50 * 10 ^ 18) sampleGarden =
      .ok { reenableReserveForStrategies 60 sampleGarden with
            gardenBalance :=
              (reenableReserveForStrategies 60 sampleGarden).gardenBalance -
                preciseMul (10 ^ 16) (50 * 10 ^ 18) - 50 * 10 ^ 18,
            treasuryBalance :=
              (reenableReserveForStrategies 60 sampleGarden).treasuryBalance +
                preciseMul (10 ^ 16) (50 * 10 ^ 18),
            strategyBalance :=
              (reenableReserveForStrategies 60 sampleGarden).strategyBalance +
                50 * 10 ^ 18 } ∧
    allocateCapitalToStrategy false true true (10 ^ 16) 60 (95 * 10 ^ 18) sampleGarden =
      .error .minLiquidity :=
  ⟨(c9_allocate_liquidity (10 ^ 16) 60 (50 * 10 ^ 18) sampleGarden).1 (by norm_num
      [liquidReserve, reenableReserveForStrategies, preciseMul, preciseUnit, sampleGarden]),
   (c9_allocate_liquidity (10 ^ 16) 60 (95 * 10 ^ 18) sampleGarden).2 (by norm_num
      [liquidReserve, reenableReserveForStrategies, preciseMul, preciseUnit, sampleGarden])⟩

/-- C10: keeper payment is deferred — `payKeeper` from a garden strategy
with a whitelisted keeper always succeeds, adding the fee to the accumulated
`keeperDebt`; the keeper is transferred the entire accumulated debt (debt
reset to zero, garden balance reduced by it) exactly when the liquid reserve
covers the whole debt, and otherwise no tokens move and the debt persists
for a later call. -/
theorem c10_payKeeper_deferred (fee : Nat) (g : GardenState) :
    ∃ g2, payKeeper true false true fee g = .ok g2 ∧
      (g.keeperDebt + fee ≤ liquidReserve g →
        g2.keeperBalance = g.keeperBalance + (g.keeperDebt + fee) ∧
        g2.keeperDebt = 0 ∧
        g2.gardenBalance = g.gardenBalance - (g.keeperDebt + fee)) ∧
      (liquidReserve g < g.keeperDebt + fee →
        g2.keeperBalance = g.keeperBalance ∧
        g2.keeperDebt = g.keeperDebt + fee ∧
        g2.gardenBalance = g.gardenBalance) := by
  unfold payKeeper
  simp only [Bool.not_true, Bool.not_false, Bool.false_eq_true, if_false,
    Bool.true_eq_false, if_true]
  by_cases hc : 0 < g.keeperDebt + fee ∧ g.keeperDebt + fee ≤ liquidReserve g
  · refine ⟨_, by rw [if_pos hc], ?_, ?_⟩
    · intro _
      exact ⟨rfl, rfl, rfl⟩
    · intro hlt
      exact absurd hc.2 (Nat.not_le.mpr hlt)
  · refine ⟨_, by rw [if_neg hc], ?_, ?_⟩
    · intro hle
      rcases Nat.eq_zero_or_pos (g.keeperDebt + fee) with h0 | hpos
      · simp [h0, Nat.add_eq_zero.mp h0]
      · exact absurd ⟨hpos, hle⟩ hc
    · intro _
      exact ⟨rfl, rfl, rfl⟩

/-- C10 witness: a garden with debt 3 and liquid reserve 15 pays the keeper
the full accumulated 5 on a fee of 2 (debt reset to 0), but on a fee of 20
(debt 23 > 15) transfers nothing and the debt persists. -/
theorem c10_witness :
    (∃ g2, payKeeper true false true 2 sampleGardenSmall = .ok g2 ∧
      g2.keeperBalance = 5 ∧ g2.keeperDebt = 0) ∧
    (∃ g2, payKeeper true false true 20 sampleGardenSmall = .ok g2 ∧
      g2.keeperBalance = 0 ∧ g2.keeperDebt = 23) := by
  obtain ⟨g2, hok, hcov, -⟩ := c10_payKeeper_deferred 2 sampleGardenSmall
  obtain ⟨h1, h2, -⟩ := hcov (by decide)
  obtain ⟨g3, hok3, -, hun⟩ := c10_payKeeper_deferred 20 sampleGardenSmall
  obtain ⟨h3, h4, -⟩ := hun (by decide)
  exact ⟨⟨g2, hok, by rw [h1]; decide, by rw [h2]⟩,
    ⟨g3, hok3, by rw [h3]; decide, by rw [h4]; decide⟩⟩

end Babylon
